import Mathlib

/-!
Verification development for the cargosynq-ingestor order processor
(`src/handlers/order-processor.ts`).

Shallow embedding conventions:
* JavaScript strings are modeled as Lean `String` except for the LLM
  response text handled by the code-fence stripper, which is modeled as
  `List Char` so that the character-level regex manipulation can be
  reasoned about directly.
* JavaScript truthiness of an optional string (`undefined` and `""` are
  falsy) is `strTruthy`; truthiness of an optional number (`undefined`
  and `0` are falsy) is handled at each use site.
* DynamoDB tables are modeled as association lists keyed by `sessionId`;
  a single session's aggregate slot is an `Option OrderRecord`.
  `PutCommand` without a condition expression is an unconditional
  overwrite of the keyed item, exactly as in DynamoDB.
* The OpenAI call and `JSON.parse` are external capabilities; they enter
  the model as the environment functions `llm` (content to optional raw
  response text; `none` models a thrown request error / missing
  response) and `parse` (text to optional parsed object; `none` models a
  `JSON.parse` exception).
* Whitespace is `Char.isWhitespace` (space, tab, CR, LF), the ASCII core
  of both JavaScript `trim()` and the regex class `\s`.
-/

/-- The `fileType` field of a record: `'eml' | 'pdf'`. -/
inductive FileType where
  | eml
  | pdf
deriving DecidableEq

/-- One item of the records table (interface `DynamoDBRecord` in the source).
Optional fields are `Option`; `[key: string]: any` fields actually read by
the order processor (`subject`, `bodyText`) are included. -/
structure DynamoDBRecord where
  id : String
  fileType : FileType
  sessionId : String
  attachmentCount : Option Nat
  pdfAttachmentCount : Option Nat
  aiSummary : Option String
  textContent : Option String
  csid : Option String
  emlRecordId : Option String
  subject : Option String
  bodyText : Option String
  createdAt : String
deriving DecidableEq

/-- JavaScript truthiness of an optional string combined with a
`length > 0` check, as in `record.aiSummary && record.aiSummary.length > 0`:
`undefined` and the empty string are falsy. -/
def strTruthy : Option String → Bool
  | none => false
  | some s => decide (s ≠ "")

/-- Filter predicate of line 107: the record has file type eml. -/
def isEml (r : DynamoDBRecord) : Bool := decide (r.fileType = FileType.eml)

/-- Filter predicate of line 108: the record has file type pdf. -/
def isPdf (r : DynamoDBRecord) : Bool := decide (r.fileType = FileType.pdf)

/-- Truthiness check `pdf.textContent && pdf.textContent.length > 0` of lines 115 and 140-141. -/
def pdfDone (pdf : DynamoDBRecord) : Bool := strTruthy pdf.textContent

/-- Truthiness check `eml.aiSummary && eml.aiSummary.length > 0` of lines 135-136. -/
def emlDone (eml : DynamoDBRecord) : Bool := strTruthy eml.aiSummary

/-- Rule 2 body (lines 123-127): summary present and
`attachmentCount === 0 || pdfAttachmentCount === 0`. -/
def emlReadyNoAttachments (eml : DynamoDBRecord) : Bool :=
  strTruthy eml.aiSummary &&
    ((eml.attachmentCount == some 0) || (eml.pdfAttachmentCount == some 0))

/-- The per-email step of the attachment-count loop (lines 146-155): when
`eml.pdfAttachmentCount && eml.pdfAttachmentCount > 0`, the number of pdf
records whose `emlRecordId` equals this record's id must equal it; other
email records are skipped. -/
def countCheck (pdfRecords : List DynamoDBRecord) (eml : DynamoDBRecord) : Bool :=
  match eml.pdfAttachmentCount with
  | some n =>
    if 0 < n then
      decide ((pdfRecords.filter fun pdf => pdf.emlRecordId == some eml.id).length = n)
    else true
  | none => true

/-- Function `checkProcessingCompletion` (lines 86-167), as a pure function of the
queried record set. The unused `triggerRecordId` / `triggerFileType`
parameters of the source are dropped (the body never reads them); the
early-`break` flag loop for attachment counts is the `List.all` of
`countCheck`. -/
def checkProcessingCompletion (records : List DynamoDBRecord) : Bool :=
  if records.isEmpty then
    false
  else
    if (records.filter isEml).isEmpty && !(records.filter isPdf).isEmpty then
      (records.filter isPdf).all pdfDone
    else if !(records.filter isEml).isEmpty && (records.filter isPdf).isEmpty then
      (records.filter isEml).all emlReadyNoAttachments
    else if !(records.filter isEml).isEmpty && !(records.filter isPdf).isEmpty then
      (records.filter isEml).all emlDone &&
        (records.filter isPdf).all pdfDone &&
        (records.filter isEml).all (countCheck (records.filter isPdf))
    else
      false

/-- The object parsed from the extraction response (interface `OrderData`),
modeled shallowly as the list of its key/value pairs; `[]` is the empty
object `{}` that `extractOrderData` returns on any error (line 417). -/
abbrev OrderData := List (String × String)

/-- Drop leading whitespace, the effect of the `\s*` part of the
anchored replacement regexes at lines 403 and 405. -/
def dropLeadingWs (l : List Char) : List Char := l.dropWhile (·.isWhitespace)

/-- Drop trailing whitespace. -/
def dropTrailingWs (l : List Char) : List Char :=
  (l.reverse.dropWhile (·.isWhitespace)).reverse

/-- Trimming `content_text.trim()` (line 401) on the character-list model. -/
def trimChars (l : List Char) : List Char := dropTrailingWs (dropLeadingWs l)

/-- The backtick character (code point 96). -/
def tick : Char := Char.ofNat 96

/-- The seven-character opening fence matched by the source check
`startsWith` with the json fence. -/
def fenceJson : List Char := [tick, tick, tick, 'j', 's', 'o', 'n']

/-- The three-character fence matched by the source check `startsWith`
with the bare fence. -/
def fence : List Char := [tick, tick, tick]

/-- Replacement `replace(/\s*```$/, '')` (lines 403 and 405): the anchored regex
matches exactly when the text ends in three backticks, and the leftmost
match removes them together with the maximal whitespace run before them;
otherwise the text is unchanged. -/
def stripTrailingFence (l : List Char) : List Char :=
  if fence.isSuffixOf l then dropTrailingWs (l.take (l.length - 3)) else l

/-- Lines 400-406: trim the response, then strip a leading ```` ```json ````
or ```` ``` ```` fence (with the whitespace after it) and a trailing
```` ``` ```` fence (with the whitespace before it). -/
def stripCodeFences (l : List Char) : List Char :=
  if fenceJson.isPrefixOf (trimChars l) then
    stripTrailingFence (dropLeadingWs ((trimChars l).drop 7))
  else if fence.isPrefixOf (trimChars l) then
    stripTrailingFence (dropLeadingWs ((trimChars l).drop 3))
  else
    trimChars l

/-- Function `extractOrderData` (lines 270-419). `llm` is the OpenAI call: it maps
the compiled content to the optional response text (`none` when the request
throws or the response has no content, line 396-398). `parse` is
`JSON.parse` (`none` when parsing throws). Every error path lands in the
`catch` of line 414, which returns the empty object. -/
def extractOrderData (llm : String → Option (List Char))
    (parse : List Char → Option OrderData) (content : String) : OrderData :=
  match llm content with
  | none => []
  | some txt =>
    match parse (stripCodeFences txt) with
    | some d => d
    | none => []

/-- Lines 222-224: the `mailsubject` segment, appended when
`record.subject` is truthy. -/
def subjectSegment (record : DynamoDBRecord) : String :=
  match record.subject with
  | some s => if s = "" then "" else "--- Segment type: mailsubject ---\n" ++ s ++ "\n\n"
  | none => ""

/-- Lines 226-228: the `mailbody` segment. -/
def bodySegment (record : DynamoDBRecord) : String :=
  match record.bodyText with
  | some s => if s = "" then "" else "--- Segment type: mailbody ---\n" ++ s ++ "\n\n"
  | none => ""

/-- Lines 230-233: the `pdftextparse` segment. -/
def textSegment (record : DynamoDBRecord) : String :=
  match record.textContent with
  | some s => if s = "" then "" else "--- Segment type: pdftextparse ---\n" ++ s ++ "\n\n"
  | none => ""

/-- Everything one loop iteration (lines 198-234) appends for one record.
The `csid` branch (lines 199-214) and the `aiSummary` branch (218-220) are
commented out in the source and append nothing. -/
def segmentOf (record : DynamoDBRecord) : String :=
  subjectSegment record ++ bodySegment record ++ textSegment record

/-- The `combinedContent` accumulation loop of `createOrder`
(lines 193-234): segments are concatenated in the order the records are
iterated — there is no sorting step. -/
def compileContent (records : List DynamoDBRecord) : String :=
  records.foldl (fun acc r => acc ++ segmentOf r) ""

/-- Emptiness check `!combinedContent.trim()` (line 236): a string trims to empty exactly
when all of its characters are whitespace. -/
def strTrimEmpty (s : String) : Bool := s.data.all (·.isWhitespace)

/-- One item of the orders table (the `orderRecord` literal, lines 247-255). -/
structure OrderRecord where
  sessionId : String
  csid : String
  createdAt : String
  processingStatus : String
  recordCount : Nat
  extractedData : OrderData
deriving DecidableEq

/-- The environment of one worker invocation: the external capabilities
and ambient state the handler reads. `recordsOf` is the records-table
query by `sessionId`; `putFails` makes the orders-table `PutCommand`
throw (a store failure); `now` is `new Date().toISOString()`. -/
structure Env where
  llm : String → Option (List Char)
  parse : List Char → Option OrderData
  putFails : Bool
  now : String
  recordsOf : String → List DynamoDBRecord

/-- The `orderRecord` built at lines 246-255. The loop that would copy a
record's `csid` into the local `csid` variable is commented out in the
source, so `csid` is still `''` here and `csid || 'unknown'` always takes
the `'unknown'` branch. -/
def mkOrderRecord (env : Env) (sessionId : String)
    (records : List DynamoDBRecord) : OrderRecord :=
  let csid : String := ""
  { sessionId := sessionId
    csid := if csid = "" then "unknown" else csid
    createdAt := env.now
    processingStatus := "completed"
    recordCount := records.length
    extractedData := extractOrderData env.llm env.parse (compileContent records) }

/-- Spec-level outcome of one `createOrder` run. `createOrder` itself
returns `void`; these labels name its control-flow exits: the early return
at line 179 (`alreadyExists`), the early return at line 238 (`noContent`),
normal completion after the put (`created`), and the rethrow of a store
write failure at line 266 (`storeError`). -/
inductive CreateOrderResult where
  | alreadyExists
  | noContent
  | created
  | storeError
deriving DecidableEq

/-- Everything `createOrder` does before touching the orders table for a
write (lines 171-255): the advisory `GetCommand` existence check, the
records query, content compilation, the empty-content check, the
extraction call and the construction of the order record. `existing` is
what the `GetCommand` returned. -/
def getStep (env : Env) (records : List DynamoDBRecord) (sessionId : String)
    (existing : Option OrderRecord) : CreateOrderResult ⊕ OrderRecord :=
  match existing with
  | some _ => Sum.inl CreateOrderResult.alreadyExists
  | none =>
    if strTrimEmpty (compileContent records) then Sum.inl CreateOrderResult.noContent
    else Sum.inr (mkOrderRecord env sessionId records)

/-- The `PutCommand` on the orders table (lines 257-260). It carries no
`ConditionExpression`, so it unconditionally overwrites whatever item is
stored under `sessionId`; when the infrastructure fails it throws, which
line 266 rethrows. -/
def putStep (env : Env) (rec : OrderRecord) (slot : Option OrderRecord) :
    CreateOrderResult × Option OrderRecord :=
  if env.putFails then (CreateOrderResult.storeError, slot)
  else (CreateOrderResult.created, some rec)

/-- Function `createOrder` (lines 169-268) run sequentially against the aggregate
slot of its session: the get step followed, when it produces a record, by
the put step. -/
def createOrder (env : Env) (records : List DynamoDBRecord) (sessionId : String)
    (slot : Option OrderRecord) : CreateOrderResult × Option OrderRecord :=
  match getStep env records sessionId slot with
  | Sum.inl r => (r, slot)
  | Sum.inr rec => putStep env rec slot

/-- The phase of one in-flight `createOrder` invocation, used to interleave
racing workers: not started, past the existence check and extraction with
its order record built but not yet written, or finished. -/
inductive WPhase where
  | start
  | ready (rec : OrderRecord)
  | done (r : CreateOrderResult)
deriving DecidableEq

/-- One atomic step of a worker running `createOrder`: from `start` it
performs the get step (existence check, compile, extract), from `ready` it
performs the put. The decomposition into exactly these two store-visible
atomic actions mirrors the two DynamoDB calls on the orders table. -/
def stepWorker (env : Env) (records : List DynamoDBRecord) (sessionId : String) :
    WPhase → Option OrderRecord → WPhase × Option OrderRecord
  | WPhase.start, slot =>
    (match getStep env records sessionId slot with
     | Sum.inl r => (WPhase.done r, slot)
     | Sum.inr rec => (WPhase.ready rec, slot))
  | WPhase.ready rec, slot =>
    (let p := putStep env rec slot
     (WPhase.done p.1, p.2))
  | WPhase.done r, slot => (WPhase.done r, slot)

/-- Interleaved execution of two workers A and B racing `createOrder` for
the same session: `true` in the schedule steps worker A, `false` steps
worker B. The workers share the session's records but may run in
environments that differ (e.g. in their local clock). -/
def runSched (envA envB : Env) (records : List DynamoDBRecord) (sessionId : String) :
    List Bool → WPhase → WPhase → Option OrderRecord →
      WPhase × WPhase × Option OrderRecord
  | [], a, b, slot => (a, b, slot)
  | true :: rest, a, b, slot =>
    (let s := stepWorker envA records sessionId a slot
     runSched envA envB records sessionId rest s.1 b s.2)
  | false :: rest, a, b, slot =>
    (let s := stepWorker envB records sessionId b slot
     runSched envA envB records sessionId rest a s.1 s.2)

/-- The orders table across sessions, as an association list. -/
abbrev OrdersTable := List (String × OrderRecord)

/-- Read `GetCommand` on the orders table, keyed by `sessionId`. -/
def tableGet (t : OrdersTable) (sessionId : String) : Option OrderRecord :=
  (t.find? fun p => p.1 == sessionId).map (·.2)

/-- Write `PutCommand` on the orders table: replace the item stored under the
key, or insert it. -/
def tablePut (t : OrdersTable) (sessionId : String) (rec : OrderRecord) : OrdersTable :=
  if (t.find? fun p => p.1 == sessionId).isSome then
    t.map fun p => if p.1 == sessionId then (sessionId, rec) else p
  else
    t ++ [(sessionId, rec)]

/-- The fields the handler extracts from one SQS message body
(lines 58-60). -/
structure Trigger where
  recordId : String
  fileType : String
  sessionId : String
deriving DecidableEq

/-- The body of the handler's per-message `try` block for one message that
carried a `NewImage` with all required fields (lines 46-78): re-derive
readiness from the current records and, if complete, run `createOrder`.
`Except.error` is an exception escaping the `try` block — which happens
exactly when `createOrder` rethrows a store write failure. -/
def processTrigger (env : Env) (t : Trigger) (table : OrdersTable) :
    Except String OrdersTable :=
  if checkProcessingCompletion (env.recordsOf t.sessionId) then
    match getStep env (env.recordsOf t.sessionId) t.sessionId (tableGet table t.sessionId) with
    | Sum.inl _ => Except.ok table
    | Sum.inr rec =>
      if env.putFails then Except.error "store write failed"
      else Except.ok (tablePut table t.sessionId rec)
  else
    Except.ok table

/-- The SQS handler (lines 42-84). Each batch entry is `none` when its
envelope is missing `NewImage` or a required field (the `continue` paths,
lines 52-65). The `catch` at lines 79-83 swallows every exception thrown
while processing one message and moves on to the next, so the handler
invocation as a whole always completes normally: its result is always
`Except.ok`. -/
def handler (env : Env) (batch : List (Option Trigger)) (table : OrdersTable) :
    Except String OrdersTable :=
  Except.ok <| batch.foldl
    (fun tb item =>
      match item with
      | none => tb
      | some t =>
        match processTrigger env t tb with
        | Except.ok tb' => tb'
        | Except.error _ => tb)
    table

/-- A processed pdf record used in concrete scenarios. -/
def pdfRec : DynamoDBRecord :=
  { id := "p1", fileType := .pdf, sessionId := "s1", attachmentCount := none,
    pdfAttachmentCount := none, aiSummary := none, textContent := some "cargo details",
    csid := none, emlRecordId := some "e1", subject := none, bodyText := none,
    createdAt := "t0" }

/-- A summarized email record with both attachment counts absent. -/
def emlRecNoCounts : DynamoDBRecord :=
  { id := "e1", fileType := .eml, sessionId := "s1", attachmentCount := none,
    pdfAttachmentCount := none, aiSummary := some "summary", textContent := none,
    csid := none, emlRecordId := none, subject := none, bodyText := none,
    createdAt := "t0" }

/-- Record `emlRecNoCounts` after a later enrichment fills in
`pdfAttachmentCount := 2`. -/
def emlRecCount2 : DynamoDBRecord :=
  { emlRecNoCounts with pdfAttachmentCount := some 2 }

/-- Two email records carrying only subjects, used for compile-order
scenarios. -/
def subjRec (i s : String) : DynamoDBRecord :=
  { id := i, fileType := .eml, sessionId := "s1", attachmentCount := none,
    pdfAttachmentCount := none, aiSummary := none, textContent := none,
    csid := none, emlRecordId := none, subject := some s, bodyText := none,
    createdAt := "t0" }

/-- An environment whose extraction request throws (`llm` returns
`none`), with a working store. -/
def envA : Env :=
  { llm := fun _ => none, parse := fun _ => none, putFails := false,
    now := "2024-01-01T00:00:00Z", recordsOf := fun _ => [pdfRec] }

/-- Like `envA` but invoked five seconds later (a second racing worker's
clock). -/
def envB : Env := { envA with now := "2024-01-01T00:00:05Z" }

/-- An environment whose LLM answers with text that is not parseable
JSON. -/
def envBadJson : Env :=
  { envA with llm := fun _ => some "I cannot help with that.".data }

/-- An environment with a ready session whose orders-table put fails. -/
def envPutFails : Env := { envA with putFails := true }

/-- A trigger for the ready session `s1`. -/
def trigP : Trigger := { recordId := "p1", fileType := "pdf", sessionId := "s1" }

/-- A summarized email record with `attachmentCount = 0`. -/
def emlRecZero : DynamoDBRecord := { emlRecNoCounts with attachmentCount := some 0 }

/-- Record `emlRecNoCounts` after a later enrichment fills in a body text. -/
def emlRecFilledBody : DynamoDBRecord :=
  { emlRecNoCounts with bodyText := some "inline body" }

/-- Marker of a later state in which one document record's extracted text
has been made absent again. -/
def clearText (r : DynamoDBRecord) : DynamoDBRecord := { r with textContent := none }

/-- Append-only enrichment of one optional field: either the value is
unchanged, or it was previously absent (and may now be anything); a
present value is never cleared or altered. -/
def optFills {α : Type} [DecidableEq α] (o o' : Option α) : Bool :=
  decide (o' = o) || decide (o = none)

/-- Append-only enrichment of one record that fills only content fields
(`aiSummary`, `textContent`, `subject`, `bodyText`, `csid`): identity
fields and both attachment counts are unchanged. -/
def recFills (r r' : DynamoDBRecord) : Bool :=
  decide (r'.id = r.id) && decide (r'.fileType = r.fileType) &&
  decide (r'.sessionId = r.sessionId) && decide (r'.createdAt = r.createdAt) &&
  decide (r'.attachmentCount = r.attachmentCount) &&
  decide (r'.pdfAttachmentCount = r.pdfAttachmentCount) &&
  decide (r'.emlRecordId = r.emlRecordId) &&
  optFills r.aiSummary r'.aiSummary && optFills r.textContent r'.textContent &&
  optFills r.subject r'.subject && optFills r.bodyText r'.bodyText &&
  optFills r.csid r'.csid

/-- The enrichment relation exactly as claim C4 states it: in addition to
the content fields, a previously absent declared child count
(`pdfAttachmentCount`) may also be filled in. -/
def recFillsDeclared (r r' : DynamoDBRecord) : Bool :=
  decide (r'.id = r.id) && decide (r'.fileType = r.fileType) &&
  decide (r'.sessionId = r.sessionId) && decide (r'.createdAt = r.createdAt) &&
  decide (r'.attachmentCount = r.attachmentCount) &&
  optFills r.pdfAttachmentCount r'.pdfAttachmentCount &&
  decide (r'.emlRecordId = r.emlRecordId) &&
  optFills r.aiSummary r'.aiSummary && optFills r.textContent r'.textContent &&
  optFills r.subject r'.subject && optFills r.bodyText r'.bodyText &&
  optFills r.csid r'.csid

/-- Pointwise enrichment of a record set with a fixed record-id sequence. -/
def listFills (rel : DynamoDBRecord → DynamoDBRecord → Bool) :
    List DynamoDBRecord → List DynamoDBRecord → Bool
  | [], [] => true
  | r :: rs, r' :: rs' => rel r r' && listFills rel rs rs'
  | _, _ => false

example :
    checkProcessingCompletion
      [{ id := "p1", fileType := .pdf, sessionId := "s", attachmentCount := none,
         pdfAttachmentCount := none, aiSummary := none, textContent := some "x",
         csid := none, emlRecordId := none, subject := none, bodyText := none,
         createdAt := "t" }] = true := by decide

-- Rule 3 scenario from the spec: one email expecting two documents.
example :
    checkProcessingCompletion [emlRecCount2, pdfRec,
      { pdfRec with id := "p2" }] = true := by decide

example :
    checkProcessingCompletion [emlRecCount2, pdfRec] = false := by decide

-- C4 scratch: filling in a previously absent declaredChildCount flips
-- a complete mixed session to incomplete.
example : checkProcessingCompletion [emlRecNoCounts, pdfRec] = true := by decide
example : checkProcessingCompletion [emlRecCount2, pdfRec] = false := by decide

-- C9 scratch: fence stripping on a concrete fenced response.
example :
    stripCodeFences "```json\n\x7b\"poNumber\": \"7\"\x7d\n```".data
      = "\x7b\"poNumber\": \"7\"\x7d".data := by decide
example :
    stripCodeFences "```\n\x7b\"poNumber\": \"7\"\x7d\n```".data
      = "\x7b\"poNumber\": \"7\"\x7d".data := by decide

-- C2 scratch: unparseable response still creates the aggregate, with {}.
example :
    createOrder envBadJson [pdfRec] "s1" none
      = (CreateOrderResult.created,
          some { sessionId := "s1", csid := "unknown",
                 createdAt := "2024-01-01T00:00:00Z",
                 processingStatus := "completed", recordCount := 1,
                 extractedData := [] }) := by decide

-- C1 scratch: both workers read before either writes; both create, and
-- worker B's aggregate overwrites worker A's.
example :
    runSched envA envB [pdfRec] "s1" [true, false, true, false]
        WPhase.start WPhase.start none
      = (WPhase.done CreateOrderResult.created,
         WPhase.done CreateOrderResult.created,
         some (mkOrderRecord envB "s1" [pdfRec])) := by decide

-- C6 scratch: store failure is an error out of processTrigger but the
-- handler still completes normally.
example :
    processTrigger envPutFails { recordId := "p1", fileType := "pdf", sessionId := "s1" } []
      = Except.error "store write failed" := by rfl
example :
    handler envPutFails [some { recordId := "p1", fileType := "pdf", sessionId := "s1" }] []
      = Except.ok [] := by rfl

example :
    checkProcessingCompletion
      [{ id := "e1", fileType := .eml, sessionId := "s", attachmentCount := none,
         pdfAttachmentCount := none, aiSummary := some "sum", textContent := none,
         csid := none, emlRecordId := none, subject := none, bodyText := none,
         createdAt := "t" }] = false := by decide

example :
    checkProcessingCompletion
      [{ id := "e1", fileType := .eml, sessionId := "s", attachmentCount := some 0,
         pdfAttachmentCount := none, aiSummary := some "sum", textContent := none,
         csid := none, emlRecordId := none, subject := none, bodyText := none,
         createdAt := "t" }] = true := by decide


/-- Claim C8: sequential idempotence of finalization — after a
`createOrder` run that returned `created`, a later run for the same
session (with any environment and any record set) returns `alreadyExists`
and leaves the stored aggregate unchanged: the second run performs no
write. -/
theorem createOrder_idempotent_after_created (ea eb : Env)
    (records records' : List DynamoDBRecord) (sid : String)
    (slot : Option OrderRecord)
    (h : (createOrder ea records sid slot).1 = CreateOrderResult.created) :
    createOrder eb records' sid (createOrder ea records sid slot).2
      = (CreateOrderResult.alreadyExists, (createOrder ea records sid slot).2) := by
  cases slot with
  | some r => simp [createOrder, getStep] at h
  | none =>
    cases hc : strTrimEmpty (compileContent records) with
    | true => simp [createOrder, getStep, hc] at h
    | false =>
      cases hp : ea.putFails with
      | true => simp [createOrder, getStep, putStep, hc, hp] at h
      | false => simp [createOrder, getStep, putStep, hc, hp]

/-- Witness for C8: a concrete first run that creates, after which the
second run reports `alreadyExists` on the unchanged slot. -/
theorem createOrder_idempotent_after_created_witness :
    (createOrder envA [pdfRec] "s1" none).1 = CreateOrderResult.created
    ∧ createOrder envB [pdfRec] "s1" (createOrder envA [pdfRec] "s1" none).2
        = (CreateOrderResult.alreadyExists, (createOrder envA [pdfRec] "s1" none).2) :=
  ⟨by decide,
   createOrder_idempotent_after_created envA envB [pdfRec] [pdfRec] "s1" none (by decide)⟩

/-- Claim C10: every aggregate written by `createOrder` has `csid` equal
to the literal `"unknown"` — the loop that would copy a record's `csid`
is commented out, the local variable stays `''`, and `csid || 'unknown'`
always yields `'unknown'`. -/
theorem createOrder_csid_unknown (env : Env) (records : List DynamoDBRecord)
    (sid : String) (slot : Option OrderRecord)
    (h : (createOrder env records sid slot).1 = CreateOrderResult.created) :
    ∃ rec, (createOrder env records sid slot).2 = some rec ∧ rec.csid = "unknown" := by
  cases slot with
  | some r => simp [createOrder, getStep] at h
  | none =>
    cases hc : strTrimEmpty (compileContent records) with
    | true => simp [createOrder, getStep, hc] at h
    | false =>
      cases hp : env.putFails with
      | true => simp [createOrder, getStep, putStep, hc, hp] at h
      | false =>
        refine ⟨mkOrderRecord env sid records, ?_, rfl⟩
        simp [createOrder, getStep, putStep, hc, hp]

/-- Witness for C10 at a concrete creating run. -/
theorem createOrder_csid_unknown_witness :
    (createOrder envA [pdfRec] "s1" none).1 = CreateOrderResult.created
    ∧ ∃ rec, (createOrder envA [pdfRec] "s1" none).2 = some rec
        ∧ rec.csid = "unknown" :=
  ⟨by decide, createOrder_csid_unknown envA [pdfRec] "s1" none (by decide)⟩

/-- Claim C2 (amended): on extraction failure (request error, missing
response, or unparseable response text) `extractOrderData` swallows the
error and returns the empty object, and `createOrder` still writes the
aggregate, with `extractedData = {}` — the aggregate store does change.
The original claim (return `Failed(reason)`, store unchanged) fails on
the code. -/
theorem createOrder_writes_despite_extraction_failure (env : Env)
    (records : List DynamoDBRecord) (sid : String)
    (hput : env.putFails = false)
    (hcontent : strTrimEmpty (compileContent records) = false)
    (hfail : ∀ t, env.llm (compileContent records) = some t →
      env.parse (stripCodeFences t) = none) :
    createOrder env records sid none
      = (CreateOrderResult.created, some (mkOrderRecord env sid records))
    ∧ (mkOrderRecord env sid records).extractedData = [] := by
  constructor
  · simp [createOrder, getStep, putStep, hcontent, hput]
  · show extractOrderData env.llm env.parse (compileContent records) = []
    cases hl : env.llm (compileContent records) with
    | none => simp [extractOrderData, hl]
    | some t => simp [extractOrderData, hl, hfail t hl]

/-- Witness for C2: a session whose extraction response is not JSON. -/
theorem createOrder_writes_despite_extraction_failure_witness :
    envBadJson.putFails = false
    ∧ strTrimEmpty (compileContent [pdfRec]) = false
    ∧ (createOrder envBadJson [pdfRec] "s1" none
        = (CreateOrderResult.created, some (mkOrderRecord envBadJson "s1" [pdfRec]))
      ∧ (mkOrderRecord envBadJson "s1" [pdfRec]).extractedData = []) :=
  ⟨rfl, by decide,
   createOrder_writes_despite_extraction_failure envBadJson [pdfRec] "s1" rfl
     (by decide) (fun t ht => rfl)⟩

/-- Counterexample to C2 as stated: for the session `s1` the extraction
capability answers with text that is not parseable JSON, yet the
aggregate store does not stay unchanged — an aggregate is written. -/
theorem extraction_failure_still_writes_counterexample :
    envBadJson.llm (compileContent [pdfRec]) = some "I cannot help with that.".data
    ∧ envBadJson.parse (stripCodeFences "I cannot help with that.".data) = none
    ∧ (createOrder envBadJson [pdfRec] "s1" none).2 ≠ none :=
  ⟨rfl, rfl, by decide⟩

/-- Claim C1 (amended): the commit step of `createOrder` is an
unconditional put guarded only by a prior non-atomic existence read. When
two invocations race so that both reads happen before either write, both
finish `created` and the second put overwrites the first worker's
aggregate: the final stored aggregate is the second writer's. -/
theorem createOrder_race_both_create (ea eb : Env)
    (records : List DynamoDBRecord) (sid : String)
    (hA : ea.putFails = false) (hB : eb.putFails = false)
    (hcontent : strTrimEmpty (compileContent records) = false) :
    runSched ea eb records sid [true, false, true, false]
        WPhase.start WPhase.start none
      = (WPhase.done CreateOrderResult.created,
         WPhase.done CreateOrderResult.created,
         some (mkOrderRecord eb sid records)) := by
  simp [runSched, stepWorker, getStep, putStep, hA, hB, hcontent]

/-- Witness for C1's amended race behavior at a concrete ready session. -/
theorem createOrder_race_both_create_witness :
    envA.putFails = false ∧ envB.putFails = false
    ∧ strTrimEmpty (compileContent [pdfRec]) = false
    ∧ runSched envA envB [pdfRec] "s1" [true, false, true, false]
          WPhase.start WPhase.start none
        = (WPhase.done CreateOrderResult.created,
           WPhase.done CreateOrderResult.created,
           some (mkOrderRecord envB "s1" [pdfRec])) :=
  ⟨rfl, rfl, by decide,
   createOrder_race_both_create envA envB [pdfRec] "s1" rfl rfl (by decide)⟩

/-- Counterexample to C1 as stated: two workers race the same ready
session; after worker A's commit the aggregate is A's record, after
worker B's commit it is B's different record — both observe `created`
(not exactly one) and A's existing aggregate is overwritten by the commit
step. -/
theorem createOrder_race_counterexample :
    runSched envA envB [pdfRec] "s1" [true, false, true]
        WPhase.start WPhase.start none
      = (WPhase.done CreateOrderResult.created,
         WPhase.ready (mkOrderRecord envB "s1" [pdfRec]),
         some (mkOrderRecord envA "s1" [pdfRec]))
    ∧ runSched envA envB [pdfRec] "s1" [true, false, true, false]
        WPhase.start WPhase.start none
      = (WPhase.done CreateOrderResult.created,
         WPhase.done CreateOrderResult.created,
         some (mkOrderRecord envB "s1" [pdfRec]))
    ∧ mkOrderRecord envB "s1" [pdfRec] ≠ mkOrderRecord envA "s1" [pdfRec] :=
  ⟨by decide, by decide, by decide⟩

/-- Claim C6 (amended): a store write failure during order creation is
re-raised out of `createOrder` and escapes the per-message `try` body
(`processTrigger` errors), but the handler's per-message `catch` swallows
it: the handler invocation always completes normally, so the transport
sees a successful invocation and does not redeliver. -/
theorem handler_swallows_storeError (env : Env) (t : Trigger) (table : OrdersTable)
    (hput : env.putFails = true)
    (hready : checkProcessingCompletion (env.recordsOf t.sessionId) = true)
    (hnone : tableGet table t.sessionId = none)
    (hcontent : strTrimEmpty (compileContent (env.recordsOf t.sessionId)) = false) :
    processTrigger env t table = Except.error "store write failed"
    ∧ ∀ (env₂ : Env) (batch : List (Option Trigger)) (tb : OrdersTable),
        (handler env₂ batch tb).isOk = true := by
  refine ⟨?_, fun _ _ _ => rfl⟩
  simp [processTrigger, hready, hnone, getStep, hcontent, hput]

/-- Witness for C6's amended statement at a concrete failing store. -/
theorem handler_swallows_storeError_witness :
    envPutFails.putFails = true
    ∧ checkProcessingCompletion (envPutFails.recordsOf trigP.sessionId) = true
    ∧ tableGet [] trigP.sessionId = none
    ∧ (processTrigger envPutFails trigP [] = Except.error "store write failed"
      ∧ ∀ (env₂ : Env) (batch : List (Option Trigger)) (tb : OrdersTable),
          (handler env₂ batch tb).isOk = true) :=
  ⟨rfl, by decide, rfl,
   handler_swallows_storeError envPutFails trigP [] rfl (by decide) rfl (by decide)⟩

/-- Counterexample to C6 as stated: the orders-table write fails for a
ready session in the batch, `createOrder` re-raises, yet the handler
invocation does not fail — it returns normally with the table
unchanged, so the transport will not redeliver the mutation event. -/
theorem handler_ok_despite_storeError_counterexample :
    processTrigger envPutFails trigP [] = Except.error "store write failed"
    ∧ handler envPutFails [some trigP] [] = Except.ok [] :=
  ⟨rfl, rfl⟩


/-- On an email-only record set, `checkProcessingCompletion` takes Rule 2
(lines 121-130). -/
theorem check_emailOnly (R : List DynamoDBRecord) (hne : R ≠ [])
    (hall : R.all isEml = true) :
    checkProcessingCompletion R = R.all emlReadyNoAttachments := by
  have hmem := List.all_eq_true.mp hall
  have hE : R.filter isEml = R := List.filter_eq_self.mpr hmem
  have hP : R.filter isPdf = [] := by
    rw [List.filter_eq_nil_iff]
    intro a ha
    have ha' : isEml a = true := hmem a ha
    simp only [isEml, decide_eq_true_eq] at ha'
    simp [isPdf, ha']
  have hEmp : R.isEmpty = false := by
    cases R with
    | nil => exact absurd rfl hne
    | cons a l => rfl
  rw [checkProcessingCompletion]
  simp [hE, hP, hEmp]

/-- On a document-only record set, `checkProcessingCompletion` takes
Rule 1 (lines 112-118). -/
theorem check_docOnly (R : List DynamoDBRecord) (hne : R ≠ [])
    (hall : R.all isPdf = true) :
    checkProcessingCompletion R = R.all pdfDone := by
  have hmem := List.all_eq_true.mp hall
  have hP : R.filter isPdf = R := List.filter_eq_self.mpr hmem
  have hE : R.filter isEml = [] := by
    rw [List.filter_eq_nil_iff]
    intro a ha
    have ha' : isPdf a = true := hmem a ha
    simp only [isPdf, decide_eq_true_eq] at ha'
    simp [isEml, ha']
  have hEmp : R.isEmpty = false := by
    cases R with
    | nil => exact absurd rfl hne
    | cons a l => rfl
  rw [checkProcessingCompletion]
  simp [hE, hP, hEmp]

/-- Claim C3 (amended): for a non-empty email-only record set,
`checkProcessingCompletion` is true iff every email record has a
non-empty summary and `attachmentCount === 0 || pdfAttachmentCount === 0`.
A record whose counts are both absent therefore makes the session
incomplete — absence does not count as zero, contrary to the original
claim. -/
theorem emailOnly_completion_iff (R : List DynamoDBRecord) (hne : R ≠ [])
    (hall : R.all isEml = true) :
    checkProcessingCompletion R = true ↔
      R.all (fun r => strTruthy r.aiSummary &&
        ((r.attachmentCount == some 0) || (r.pdfAttachmentCount == some 0))) = true := by
  rw [check_emailOnly R hne hall]
  rfl

/-- Witness for C3's amended rule on a concrete email-only session. -/
theorem emailOnly_completion_iff_witness :
    [emlRecZero] ≠ ([] : List DynamoDBRecord)
    ∧ [emlRecZero].all isEml = true
    ∧ (checkProcessingCompletion [emlRecZero] = true ↔
        [emlRecZero].all (fun r => strTruthy r.aiSummary &&
          ((r.attachmentCount == some 0) || (r.pdfAttachmentCount == some 0))) = true) :=
  ⟨by decide, by decide,
   emailOnly_completion_iff [emlRecZero] (by decide) (by decide)⟩

/-- Counterexample to C3 as stated: a session with one email record whose
summary is present and whose declared child count is entirely absent
(both count fields `undefined`) is judged incomplete by the code, while
the claim says "zero or absent" is complete. -/
theorem emailOnly_absent_counts_counterexample :
    isEml emlRecNoCounts = true
    ∧ strTruthy emlRecNoCounts.aiSummary = true
    ∧ emlRecNoCounts.attachmentCount = none
    ∧ emlRecNoCounts.pdfAttachmentCount = none
    ∧ checkProcessingCompletion [emlRecNoCounts] = false := by
  decide

/-- Claim C7: for a non-empty document-only record set,
`checkProcessingCompletion` is true iff every document record has
non-empty `textContent`; and removing the text of any one record (making
it absent) flips the result to false. -/
theorem docOnly_completion_iff (R : List DynamoDBRecord) (hne : R ≠ [])
    (hall : R.all isPdf = true) :
    (checkProcessingCompletion R = true ↔
      R.all (fun r => strTruthy r.textContent) = true)
    ∧ ∀ (i : Nat) (hi : i < R.length),
        checkProcessingCompletion (R.set i (clearText (R.get ⟨i, hi⟩))) = false := by
  constructor
  · rw [check_docOnly R hne hall]
    rfl
  · intro i hi
    have hmem : R.get ⟨i, hi⟩ ∈ R := List.get_mem R i hi
    have hxpdf : isPdf (clearText (R.get ⟨i, hi⟩)) = true := by
      have := List.all_eq_true.mp hall _ hmem
      simpa [clearText, isPdf] using this
    have hlen : (R.set i (clearText (R.get ⟨i, hi⟩))).length = R.length := by
      simp
    have hne' : R.set i (clearText (R.get ⟨i, hi⟩)) ≠ [] := by
      intro h
      rw [h] at hlen
      have : R = [] := List.eq_nil_of_length_eq_zero hlen.symm
      exact hne this
    have hall' : (R.set i (clearText (R.get ⟨i, hi⟩))).all isPdf = true := by
      rw [List.all_eq_true] at hall ⊢
      intro a ha
      rcases List.mem_or_eq_of_mem_set ha with h | h
      · exact hall a h
      · rw [h]; exact hxpdf
    rw [check_docOnly _ hne' hall']
    cases hres : (R.set i (clearText (R.get ⟨i, hi⟩))).all pdfDone with
    | false => rfl
    | true =>
      exfalso
      have hi' : i < (R.set i (clearText (R.get ⟨i, hi⟩))).length := by
        rw [hlen]; exact hi
      have hx : (R.set i (clearText (R.get ⟨i, hi⟩)))[i] ∈
          R.set i (clearText (R.get ⟨i, hi⟩)) := List.getElem_mem hi'
      rw [List.getElem_set_self] at hx
      have := List.all_eq_true.mp hres _ hx
      simp [pdfDone, clearText, strTruthy] at this

/-- Witness for C7 on a concrete one-document session. -/
theorem docOnly_completion_iff_witness :
    [pdfRec] ≠ ([] : List DynamoDBRecord)
    ∧ [pdfRec].all isPdf = true
    ∧ ((checkProcessingCompletion [pdfRec] = true ↔
        [pdfRec].all (fun r => strTruthy r.textContent) = true)
      ∧ ∀ (i : Nat) (hi : i < [pdfRec].length),
          checkProcessingCompletion ([pdfRec].set i
            (clearText ([pdfRec].get ⟨i, hi⟩))) = false) :=
  ⟨by decide, by decide, docOnly_completion_iff [pdfRec] (by decide) (by decide)⟩

/-- Folding the segment-append step from any accumulator prepends the
accumulator to the compilation of the list. -/
theorem compile_fold (l : List DynamoDBRecord) (acc : String) :
    List.foldl (fun a r => a ++ segmentOf r) acc l
      = acc ++ List.foldl (fun a r => a ++ segmentOf r) "" l := by
  induction l generalizing acc with
  | nil => simp
  | cons r t ih =>
    rw [List.foldl_cons, List.foldl_cons, ih (acc ++ segmentOf r),
      ih ("" ++ segmentOf r), String.empty_append, String.append_assoc]

/-- Claim C5 (amended): `Compile` emits one labeled segment block per
record in the order the records are iterated — it distributes over list
concatenation and a singleton compiles to exactly that record's segments.
There is no sorting step, so the output is a function of the input
sequence, not of the underlying set (see the counterexample for the
failure of permutation invariance). -/
theorem compileContent_append_hom (l₁ l₂ : List DynamoDBRecord)
    (r : DynamoDBRecord) :
    compileContent (l₁ ++ l₂) = compileContent l₁ ++ compileContent l₂
    ∧ compileContent [r] = segmentOf r := by
  constructor
  · simp only [compileContent, List.foldl_append]
    exact compile_fold l₂ _
  · simp only [compileContent, List.foldl_cons, List.foldl_nil, String.empty_append]

/-- Counterexample to C5 as stated: two permuted copies of the same
two-record set compile to different strings. -/
theorem compileContent_perm_counterexample :
    List.Perm [subjRec "a" "alpha", subjRec "b" "beta"]
      [subjRec "b" "beta", subjRec "a" "alpha"]
    ∧ compileContent [subjRec "a" "alpha", subjRec "b" "beta"]
        ≠ compileContent [subjRec "b" "beta", subjRec "a" "alpha"] :=
  ⟨List.Perm.swap (subjRec "b" "beta") (subjRec "a" "alpha") [], by decide⟩

/-- Pointwise enrichment preserves length. -/
theorem listFills_length (rel : DynamoDBRecord → DynamoDBRecord → Bool) :
    ∀ {R R' : List DynamoDBRecord}, listFills rel R R' = true →
      R.length = R'.length := by
  intro R
  induction R with
  | nil =>
    intro R' h
    cases R' with
    | nil => rfl
    | cons a l => simp [listFills] at h
  | cons r rs ih =>
    intro R' h
    cases R' with
    | nil => simp [listFills] at h
    | cons r' rs' =>
      simp only [listFills, Bool.and_eq_true] at h
      simp [ih h.2]

/-- Two lists of equal length are empty together. -/
theorem isEmpty_congr_of_length {α : Type} {l l' : List α}
    (h : l.length = l'.length) : l.isEmpty = l'.isEmpty := by
  cases l <;> cases l' <;> simp_all

/-- Pointwise enrichment passes to filtering by any predicate the
relation preserves. -/
theorem listFills_filter (rel : DynamoDBRecord → DynamoDBRecord → Bool)
    (p : DynamoDBRecord → Bool) (hp : ∀ r r', rel r r' = true → p r' = p r) :
    ∀ {R R' : List DynamoDBRecord}, listFills rel R R' = true →
      listFills rel (R.filter p) (R'.filter p) = true := by
  intro R
  induction R with
  | nil =>
    intro R' h
    cases R' with
    | nil => simpa using h
    | cons a l => simp [listFills] at h
  | cons r rs ih =>
    intro R' h
    cases R' with
    | nil => simp [listFills] at h
    | cons r' rs' =>
      simp only [listFills, Bool.and_eq_true] at h
      rw [List.filter_cons, List.filter_cons, hp r r' h.1]
      cases hpr : p r with
      | true => simp [listFills, h.1, ih h.2]
      | false => simp [ih h.2]

/-- A predicate that enrichment can only turn on stays on across a
pointwise-enriched list. -/
theorem listFills_all_mono (rel : DynamoDBRecord → DynamoDBRecord → Bool)
    (q : DynamoDBRecord → Bool)
    (hq : ∀ r r', rel r r' = true → q r = true → q r' = true) :
    ∀ {R R' : List DynamoDBRecord}, listFills rel R R' = true →
      R.all q = true → R'.all q = true := by
  intro R
  induction R with
  | nil =>
    intro R' h _
    cases R' with
    | nil => rfl
    | cons a l => simp [listFills] at h
  | cons r rs ih =>
    intro R' h ha
    cases R' with
    | nil => simp [listFills] at h
    | cons r' rs' =>
      simp only [listFills, Bool.and_eq_true] at h
      simp only [List.all_cons, Bool.and_eq_true] at ha ⊢
      exact ⟨hq r r' h.1 ha.1, ih h.2 ha.2⟩

/-- Evaluating `all` over a pointwise-enriched list of a predicate whose value the
relation preserves exactly. -/
theorem listFills_all_congr (rel : DynamoDBRecord → DynamoDBRecord → Bool)
    (q q' : DynamoDBRecord → Bool)
    (hq : ∀ r r', rel r r' = true → q' r' = q r) :
    ∀ {R R' : List DynamoDBRecord}, listFills rel R R' = true →
      R'.all q' = R.all q := by
  intro R
  induction R with
  | nil =>
    intro R' h
    cases R' with
    | nil => rfl
    | cons a l => simp [listFills] at h
  | cons r rs ih =>
    intro R' h
    cases R' with
    | nil => simp [listFills] at h
    | cons r' rs' =>
      simp only [listFills, Bool.and_eq_true] at h
      simp only [List.all_cons]
      rw [hq r r' h.1, ih h.2]

/-- Unpacking of the content-only enrichment relation. -/
theorem recFills_spec {r r' : DynamoDBRecord} (h : recFills r r' = true) :
    r'.id = r.id ∧ r'.fileType = r.fileType ∧
    r'.attachmentCount = r.attachmentCount ∧
    r'.pdfAttachmentCount = r.pdfAttachmentCount ∧
    r'.emlRecordId = r.emlRecordId ∧
    optFills r.aiSummary r'.aiSummary = true ∧
    optFills r.textContent r'.textContent = true := by
  simp only [recFills, Bool.and_eq_true, decide_eq_true_eq] at h
  tauto

/-- A present optional value survives enrichment unchanged. -/
theorem optFills_some {α : Type} [DecidableEq α] {o o' : Option α} {a : α}
    (h : optFills o o' = true) (ha : o = some a) : o' = some a := by
  simp only [optFills, Bool.or_eq_true, decide_eq_true_eq] at h
  rcases h with h | h
  · rw [h, ha]
  · rw [ha] at h
    exact absurd h (by simp)

/-- A truthy optional string stays truthy under enrichment. -/
theorem strTruthy_mono {o o' : Option String} (h : optFills o o' = true)
    (ht : strTruthy o = true) : strTruthy o' = true := by
  cases hc : o with
  | none => rw [hc] at ht; simp [strTruthy] at ht
  | some s => rw [optFills_some h hc, ← hc]; exact ht

/-- The attachment-count check is unchanged by content-only enrichment of
both the email record and the pdf record set. -/
theorem countCheck_congr {P P' : List DynamoDBRecord} {e e' : DynamoDBRecord}
    (hP : listFills recFills P P' = true) (he : recFills e e' = true) :
    countCheck P' e' = countCheck P e := by
  obtain ⟨hid, _, _, hpac, _, _, _⟩ := recFills_spec he
  have hflen : (P'.filter fun pdf => pdf.emlRecordId == some e.id).length
      = (P.filter fun pdf => pdf.emlRecordId == some e.id).length := by
    have hfil := listFills_filter recFills
      (fun pdf => pdf.emlRecordId == some e.id)
      (fun r r' hr => by
        obtain ⟨_, _, _, _, hml, _, _⟩ := recFills_spec hr
        show (r'.emlRecordId == some e.id) = (r.emlRecordId == some e.id)
        rw [hml]) hP
    exact (listFills_length recFills hfil).symm
  unfold countCheck
  rw [hpac, hid, hflen]

/-- Claim C4 (amended): `checkProcessingCompletion` is monotonic over
append-only enrichment that fills in previously absent content fields
(`extractedText`/`textContent`, `derivedSummary`/`aiSummary`, subject,
body, csid) while the declared child counts stay unchanged: a complete
record set stays complete. Filling in a previously absent
`declaredChildCount` is excluded — the counterexample shows that such a
fill can flip a complete mixed session to incomplete. -/
theorem checkProcessingCompletion_monotone_fill (R R' : List DynamoDBRecord)
    (hf : listFills recFills R R' = true)
    (hc : checkProcessingCompletion R = true) :
    checkProcessingCompletion R' = true := by
  have hfe : ∀ r r', recFills r r' = true → isEml r' = isEml r := by
    intro r r' h
    obtain ⟨_, hft, _⟩ := recFills_spec h
    simp [isEml, hft]
  have hfp : ∀ r r', recFills r r' = true → isPdf r' = isPdf r := by
    intro r r' h
    obtain ⟨_, hft, _⟩ := recFills_spec h
    simp [isPdf, hft]
  have hE := listFills_filter recFills isEml hfe hf
  have hP := listFills_filter recFills isPdf hfp hf
  have hREmp : R'.isEmpty = R.isEmpty :=
    isEmpty_congr_of_length (listFills_length recFills hf).symm
  have hEEmp : (R'.filter isEml).isEmpty = (R.filter isEml).isEmpty :=
    isEmpty_congr_of_length (listFills_length recFills hE).symm
  have hPEmp : (R'.filter isPdf).isEmpty = (R.filter isPdf).isEmpty :=
    isEmpty_congr_of_length (listFills_length recFills hP).symm
  have hqPdf : ∀ r r', recFills r r' = true → pdfDone r = true → pdfDone r' = true := by
    intro r r' h ht
    obtain ⟨_, _, _, _, _, _, htc⟩ := recFills_spec h
    exact strTruthy_mono htc ht
  have hqEml : ∀ r r', recFills r r' = true → emlDone r = true → emlDone r' = true := by
    intro r r' h ht
    obtain ⟨_, _, _, _, _, hai, _⟩ := recFills_spec h
    exact strTruthy_mono hai ht
  have hqRule2 : ∀ r r', recFills r r' = true →
      emlReadyNoAttachments r = true → emlReadyNoAttachments r' = true := by
    intro r r' h ht
    obtain ⟨_, _, hac, hpac, _, hai, _⟩ := recFills_spec h
    simp only [emlReadyNoAttachments, Bool.and_eq_true] at ht ⊢
    rw [hac, hpac]
    exact ⟨strTruthy_mono hai ht.1, ht.2⟩
  rw [checkProcessingCompletion] at hc ⊢
  rw [hREmp, hEEmp, hPEmp]
  cases hREv : R.isEmpty with
  | true =>
    rw [hREv, if_pos rfl] at hc
    exact absurd hc (by simp)
  | false =>
    rw [hREv, if_neg (by simp)] at hc
    rw [if_neg (by simp)]
    cases hEv : (R.filter isEml).isEmpty with
    | true =>
      cases hPv : (R.filter isPdf).isEmpty with
      | true =>
        rw [hEv, hPv, if_neg (by simp), if_neg (by simp), if_neg (by simp)] at hc
        exact absurd hc (by simp)
      | false =>
        rw [hEv, hPv, if_pos (by simp)] at hc
        rw [if_pos (by simp)]
        exact listFills_all_mono recFills pdfDone hqPdf hP hc
    | false =>
      cases hPv : (R.filter isPdf).isEmpty with
      | true =>
        rw [hEv, hPv, if_neg (by simp), if_pos (by simp)] at hc
        rw [if_neg (by simp), if_pos (by simp)]
        exact listFills_all_mono recFills emlReadyNoAttachments hqRule2 hE hc
      | false =>
        rw [hEv, hPv, if_neg (by simp), if_neg (by simp), if_pos (by simp)] at hc
        rw [if_neg (by simp), if_neg (by simp), if_pos (by simp)]
        rw [Bool.and_eq_true, Bool.and_eq_true] at hc
        rw [Bool.and_eq_true, Bool.and_eq_true]
        refine ⟨⟨listFills_all_mono recFills emlDone hqEml hE hc.1.1,
          listFills_all_mono recFills pdfDone hqPdf hP hc.1.2⟩, ?_⟩
        rw [listFills_all_congr recFills (countCheck (R.filter isPdf))
          (countCheck (R'.filter isPdf)) (fun e e' he => countCheck_congr hP he) hE]
        exact hc.2

/-- Witness for C4's amended monotonicity: filling in a body text on a
complete mixed session keeps it complete. -/
theorem checkProcessingCompletion_monotone_fill_witness :
    listFills recFills [emlRecNoCounts, pdfRec] [emlRecFilledBody, pdfRec] = true
    ∧ checkProcessingCompletion [emlRecNoCounts, pdfRec] = true
    ∧ checkProcessingCompletion [emlRecFilledBody, pdfRec] = true :=
  ⟨by decide, by decide,
   checkProcessingCompletion_monotone_fill [emlRecNoCounts, pdfRec]
     [emlRecFilledBody, pdfRec] (by decide) (by decide)⟩

/-- Counterexample to C4 as stated: the enrichment that fills in the
previously absent declared child count `pdfAttachmentCount := 2` on the
email record of a complete mixed session (one email, one linked pdf)
satisfies the claim's fill relation yet flips completeness to false. -/
theorem fill_declaredChildCount_counterexample :
    listFills recFillsDeclared [emlRecNoCounts, pdfRec] [emlRecCount2, pdfRec] = true
    ∧ checkProcessingCompletion [emlRecNoCounts, pdfRec] = true
    ∧ checkProcessingCompletion [emlRecCount2, pdfRec] = false := by
  decide

/-- Whitespace-prefix removal skips a run of whitespace. -/
theorem dropLeadingWs_append_ws (w l : List Char)
    (hw : ∀ c ∈ w, c.isWhitespace = true) :
    dropLeadingWs (w ++ l) = dropLeadingWs l := by
  induction w with
  | nil => rfl
  | cons c w ih =>
    have hc : c.isWhitespace = true := hw c (by simp)
    show ((c :: (w ++ l)).dropWhile (·.isWhitespace)) = dropLeadingWs l
    rw [List.dropWhile_cons, if_pos (by simp [hc])]
    exact ih (fun d hd => hw d (List.mem_cons_of_mem c hd))

/-- Whitespace-prefix removal stops at a non-whitespace head. -/
theorem dropLeadingWs_cons_not (c : Char) (l : List Char)
    (hc : c.isWhitespace = false) : dropLeadingWs (c :: l) = c :: l := by
  show ((c :: l).dropWhile (·.isWhitespace)) = c :: l
  rw [List.dropWhile_cons, if_neg (by simp [hc])]

/-- Like `dropLeadingWs_cons_not` for a cons followed by an append. -/
theorem dropLeadingWs_cons_append (c : Char) (t l : List Char)
    (hc : c.isWhitespace = false) :
    dropLeadingWs ((c :: t) ++ l) = (c :: t) ++ l := by
  rw [List.cons_append]
  exact dropLeadingWs_cons_not c (t ++ l) hc

/-- Whitespace-prefix removal is the identity on a list with a
non-whitespace head, even with a tail appended. -/
theorem dropLeadingWs_append_of_head (j l : List Char) (hne : j ≠ [])
    (hh : (j.head hne).isWhitespace = false) :
    dropLeadingWs (j ++ l) = j ++ l := by
  have h := dropLeadingWs_cons_append (j.head hne) j.tail l hh
  rw [List.head_cons_tail] at h
  exact h

/-- Whitespace-suffix removal skips a trailing run of whitespace. -/
theorem dropTrailingWs_append_ws (l w : List Char)
    (hw : ∀ c ∈ w, c.isWhitespace = true) :
    dropTrailingWs (l ++ w) = dropTrailingWs l := by
  show (dropLeadingWs (l ++ w).reverse).reverse = (dropLeadingWs l.reverse).reverse
  rw [List.reverse_append, dropLeadingWs_append_ws w.reverse l.reverse
    (fun c hcm => hw c (List.mem_reverse.mp hcm))]

/-- Whitespace-suffix removal stops at a non-whitespace last element. -/
theorem dropTrailingWs_concat_not (l : List Char) (c : Char)
    (hc : c.isWhitespace = false) : dropTrailingWs (l ++ [c]) = l ++ [c] := by
  show (dropLeadingWs (l ++ [c]).reverse).reverse = l ++ [c]
  rw [List.reverse_append]
  have h : dropLeadingWs ([c].reverse ++ l.reverse) = [c].reverse ++ l.reverse := by
    show dropLeadingWs ((c :: []) ++ l.reverse) = (c :: []) ++ l.reverse
    exact dropLeadingWs_cons_append c [] l.reverse hc
  rw [h, ← List.reverse_append, List.reverse_reverse]

/-- Whitespace-suffix removal is the identity when the last element is
not whitespace. -/
theorem dropTrailingWs_of_last_not (j : List Char) (hne : j ≠ [])
    (hl : (j.getLast hne).isWhitespace = false) : dropTrailingWs j = j := by
  have hdec := List.dropLast_append_getLast hne
  calc dropTrailingWs j
      = dropTrailingWs (j.dropLast ++ [j.getLast hne]) := by rw [hdec]
    _ = j.dropLast ++ [j.getLast hne] := dropTrailingWs_concat_not _ _ hl
    _ = j := hdec

/-- Whitespace-suffix removal is the identity on anything ending in the
closing fence. -/
theorem dropTrailingWs_append_fence (Y : List Char) :
    dropTrailingWs (Y ++ fence) = Y ++ fence := by
  show (dropLeadingWs (Y ++ fence).reverse).reverse = Y ++ fence
  rw [List.reverse_append, show fence.reverse = fence from by decide]
  have h : dropLeadingWs (fence ++ Y.reverse) = fence ++ Y.reverse :=
    dropLeadingWs_cons_append tick [tick, tick] Y.reverse (by decide)
  rw [h, List.reverse_append, List.reverse_reverse,
    show fence.reverse = fence from by decide]

/-- Predicate `isPrefixOf` holds on an append with itself. -/
theorem isPrefixOf_append_self (l rest : List Char) :
    l.isPrefixOf (l ++ rest) = true := by
  induction l with
  | nil => simp [List.isPrefixOf]
  | cons c t ih => simp [List.isPrefixOf, ih]

/-- A response whose fourth character is whitespace does not start with
the ```` ```json ```` fence. -/
theorem fenceJson_not_prefixOf (w : Char) (rest : List Char)
    (hw : w.isWhitespace = true) :
    fenceJson.isPrefixOf (tick :: tick :: tick :: w :: rest) = false := by
  have hjw : ('j' == w) = false := by
    cases hj : ('j' == w) with
    | false => rfl
    | true =>
      exfalso
      have hwj : 'j' = w := by simpa using hj
      rw [← hwj] at hw
      simp at hw
  simp [fenceJson, List.isPrefixOf, hjw]

/-- Anything ending in the closing fence has it as a suffix. -/
theorem fence_isSuffixOf_append (Y : List Char) :
    fence.isSuffixOf (Y ++ fence) = true := by
  show fence.reverse.isPrefixOf (Y ++ fence).reverse = true
  rw [List.reverse_append, show fence.reverse = fence from by decide]
  exact isPrefixOf_append_self fence Y.reverse

/-- The trailing-fence replacement removes exactly the final fence and
the whitespace run before it. -/
theorem stripTrailingFence_spec (j w2 : List Char)
    (hw2 : ∀ c ∈ w2, c.isWhitespace = true) (hj : dropTrailingWs j = j) :
    stripTrailingFence (j ++ w2 ++ fence) = j := by
  rw [stripTrailingFence, if_pos (fence_isSuffixOf_append (j ++ w2))]
  have hlen : ((j ++ w2) ++ fence).length - 3 = (j ++ w2).length := by
    simp [fence]
    omega
  rw [hlen, List.take_left, dropTrailingWs_append_ws j w2 hw2, hj]

/-- Both fenced response shapes are trimmed to themselves and stripped to
exactly the inner payload. -/
theorem stripCodeFences_fenced (j w1 w2 : List Char)
    (hw1 : ∀ c ∈ w1, c.isWhitespace = true) (hw1ne : w1 ≠ [])
    (hw2 : ∀ c ∈ w2, c.isWhitespace = true)
    (hne : j ≠ [])
    (hh : (j.head hne).isWhitespace = false)
    (hl : (j.getLast hne).isWhitespace = false) :
    stripCodeFences (fenceJson ++ w1 ++ j ++ w2 ++ fence) = j
    ∧ stripCodeFences (fence ++ w1 ++ j ++ w2 ++ fence) = j := by
  obtain ⟨wc, w1t, hw1eq⟩ := List.exists_cons_of_ne_nil hw1ne
  have hwc : wc.isWhitespace = true := hw1 wc (by rw [hw1eq]; simp)
  have hmid : dropLeadingWs (w1 ++ (j ++ (w2 ++ fence))) = j ++ (w2 ++ fence) := by
    rw [dropLeadingWs_append_ws w1 _ hw1]
    exact dropLeadingWs_append_of_head j _ hne hh
  have hjfix : dropTrailingWs j = j := dropTrailingWs_of_last_not j hne hl
  constructor
  · have htrim : trimChars (fenceJson ++ w1 ++ j ++ w2 ++ fence)
        = fenceJson ++ w1 ++ j ++ w2 ++ fence := by
      rw [trimChars]
      have hdl : dropLeadingWs (fenceJson ++ w1 ++ j ++ w2 ++ fence)
          = fenceJson ++ w1 ++ j ++ w2 ++ fence := by
        rw [List.append_assoc, List.append_assoc, List.append_assoc]
        exact dropLeadingWs_cons_append tick [tick, tick, 'j', 's', 'o', 'n'] _ (by decide)
      rw [hdl]
      exact dropTrailingWs_append_fence (fenceJson ++ w1 ++ j ++ w2)
    have hpre : fenceJson.isPrefixOf (fenceJson ++ w1 ++ j ++ w2 ++ fence) = true := by
      rw [List.append_assoc, List.append_assoc, List.append_assoc]
      exact isPrefixOf_append_self fenceJson _
    rw [stripCodeFences, htrim, if_pos hpre]
    have hdrop : (fenceJson ++ w1 ++ j ++ w2 ++ fence).drop 7
        = w1 ++ (j ++ (w2 ++ fence)) := by
      rw [List.append_assoc, List.append_assoc, List.append_assoc]
      exact List.drop_left' (by decide)
    rw [hdrop, hmid, ← List.append_assoc]
    exact stripTrailingFence_spec j w2 hw2 hjfix
  · have htrim : trimChars (fence ++ w1 ++ j ++ w2 ++ fence)
        = fence ++ w1 ++ j ++ w2 ++ fence := by
      rw [trimChars]
      have hdl : dropLeadingWs (fence ++ w1 ++ j ++ w2 ++ fence)
          = fence ++ w1 ++ j ++ w2 ++ fence := by
        rw [List.append_assoc, List.append_assoc, List.append_assoc]
        exact dropLeadingWs_cons_append tick [tick, tick] _ (by decide)
      rw [hdl]
      exact dropTrailingWs_append_fence (fence ++ w1 ++ j ++ w2)
    have hnopre : fenceJson.isPrefixOf (fence ++ w1 ++ j ++ w2 ++ fence) = false := by
      rw [List.append_assoc, List.append_assoc, List.append_assoc, hw1eq]
      exact fenceJson_not_prefixOf wc (w1t ++ (j ++ (w2 ++ fence))) hwc
    have hpre : fence.isPrefixOf (fence ++ w1 ++ j ++ w2 ++ fence) = true := by
      rw [List.append_assoc, List.append_assoc, List.append_assoc]
      exact isPrefixOf_append_self fence _
    rw [stripCodeFences, htrim, if_neg (by rw [hnopre]; simp), if_pos hpre]
    have hdrop : (fence ++ w1 ++ j ++ w2 ++ fence).drop 3
        = w1 ++ (j ++ (w2 ++ fence)) := by
      rw [List.append_assoc, List.append_assoc, List.append_assoc]
      exact List.drop_left' (by decide)
    rw [hdrop, hmid, ← List.append_assoc]
    exact stripTrailingFence_spec j w2 hw2 hjfix

/-- Claim C9: for every extraction response that is a JSON payload
wrapped in markdown code fences (```` ``` ```` or ```` ```json ````,
with whitespace around the payload), the fences are stripped before
parsing and extraction succeeds with exactly the object parsed from the
fenced payload. -/
theorem stripFences_extraction_success (j w1 w2 : List Char) (v : OrderData)
    (parse : List Char → Option OrderData)
    (hw1 : ∀ c ∈ w1, c.isWhitespace = true) (hw1ne : w1 ≠ [])
    (hw2 : ∀ c ∈ w2, c.isWhitespace = true)
    (hne : j ≠ [])
    (hh : (j.head hne).isWhitespace = false)
    (hl : (j.getLast hne).isWhitespace = false)
    (hparse : parse j = some v) :
    stripCodeFences (fenceJson ++ w1 ++ j ++ w2 ++ fence) = j
    ∧ stripCodeFences (fence ++ w1 ++ j ++ w2 ++ fence) = j
    ∧ (∀ (llm : String → Option (List Char)) (content : String),
        llm content = some (fenceJson ++ w1 ++ j ++ w2 ++ fence) →
        extractOrderData llm parse content = v)
    ∧ (∀ (llm : String → Option (List Char)) (content : String),
        llm content = some (fence ++ w1 ++ j ++ w2 ++ fence) →
        extractOrderData llm parse content = v) := by
  obtain ⟨hs1, hs2⟩ := stripCodeFences_fenced j w1 w2 hw1 hw1ne hw2 hne hh hl
  refine ⟨hs1, hs2, ?_, ?_⟩
  · intro llm content hllm
    rw [extractOrderData, hllm]
    simp only [hs1, hparse]
  · intro llm content hllm
    rw [extractOrderData, hllm]
    simp only [hs2, hparse]

/-- Witness for C9 at a concrete fenced JSON object payload. -/
theorem stripFences_extraction_success_witness :
    "\x7b\"poNumber\": \"7\"\x7d".data ≠ []
    ∧ (stripCodeFences
          (fenceJson ++ ['\n'] ++ "\x7b\"poNumber\": \"7\"\x7d".data ++ ['\n'] ++ fence)
        = "\x7b\"poNumber\": \"7\"\x7d".data
      ∧ stripCodeFences
          (fence ++ ['\n'] ++ "\x7b\"poNumber\": \"7\"\x7d".data ++ ['\n'] ++ fence)
        = "\x7b\"poNumber\": \"7\"\x7d".data
      ∧ (∀ (llm : String → Option (List Char)) (content : String),
          llm content
            = some (fenceJson ++ ['\n'] ++ "\x7b\"poNumber\": \"7\"\x7d".data
                ++ ['\n'] ++ fence) →
          extractOrderData llm
            (fun s => if s = "\x7b\"poNumber\": \"7\"\x7d".data
              then some [("poNumber", "7")] else none) content
            = [("poNumber", "7")])
      ∧ (∀ (llm : String → Option (List Char)) (content : String),
          llm content
            = some (fence ++ ['\n'] ++ "\x7b\"poNumber\": \"7\"\x7d".data
                ++ ['\n'] ++ fence) →
          extractOrderData llm
            (fun s => if s = "\x7b\"poNumber\": \"7\"\x7d".data
              then some [("poNumber", "7")] else none) content
            = [("poNumber", "7")])) :=
  ⟨by decide,
   stripFences_extraction_success "\x7b\"poNumber\": \"7\"\x7d".data ['\n'] ['\n']
     [("poNumber", "7")]
     (fun s => if s = "\x7b\"poNumber\": \"7\"\x7d".data
       then some [("poNumber", "7")] else none)
     (by decide) (by decide) (by decide) (by decide) (by decide) (by decide)
     (by decide)⟩
